import Mathlib

/-!
Shallow embedding of the market-analysis pattern engine:
`pattern_analyzer.py` (PatternAnalyzer: equal highs/lows, fair value gaps,
order blocks) and `decision_agent.py` (DecisionAgent.evaluate_signals).

Python floats are modelled as exact rationals; `round(x, 6)` is modelled as
round-half-even to six decimal places; the `ZeroDivisionError` that
`_detect_order_blocks` can raise (division by `c0.open`) is modelled by the
`Except Unit` monad.  Timestamps are modelled by their Eastern-converted
clock fields (`hour`, `minute`), which is all `astimezone`+`_in_silver_window`
reads; the rationale strings built by the decision agent are not modelled
(the numeric fields are).
-/

/-- Eastern-local clock view of a bar's timestamp: what
`t.astimezone(eastern)` exposes to `_in_silver_window`. -/
structure Time where
  hour : ℕ
  minute : Fin 60
deriving DecidableEq, Repr, Inhabited

/-- OHLCV candle from `data_fetcher.py` (`open` is a Lean keyword, hence
`open_`); `volume` is `Optional[float]`. -/
structure Candle where
  time : Time
  open_ : ℚ
  high : ℚ
  low : ℚ
  close : ℚ
  volume : Option ℚ
deriving DecidableEq, Repr, Inhabited

/-- Side tag of a liquidity pool ("buy" = equal highs, "sell" = equal lows). -/
inductive Side where
  | buy
  | sell
deriving DecidableEq, Repr

/-- Direction tag of fair value gaps and order blocks. -/
inductive GapSide where
  | bullish
  | bearish
deriving DecidableEq, Repr

/-- The tagged union of the dicts the three detectors emit. -/
inductive Signal where
  | liquidityPool (side : Side) (price : ℚ) (times : List Time)
  | fairValueGap (side : GapSide) (gap_low : ℚ) (gap_high : ℚ) (time : Time)
  | orderBlock (side : GapSide) (zone : ℚ × ℚ) (time : Time) (body_size : ℚ) (volume : Option ℚ)
deriving DecidableEq, Repr

/-- PatternAnalyzer construction parameters (`__init__`). -/
structure AnalyzerCfg where
  lookback : ℕ := 100
  equal_tolerance : ℚ := 1/1000
deriving DecidableEq, Repr

/-- Round to the nearest integer, ties to even (Python's `round` on exact
values). -/
def roundHalfEven (x : ℚ) : ℤ :=
  let n := Int.floor x
  if x - n < 1/2 then n
  else if 1/2 < x - n then n + 1
  else if n % 2 = 0 then n else n + 1

/-- Python's `round(x, 6)` on exact values. -/
def round6 (x : ℚ) : ℚ :=
  (roundHalfEven (x * 1000000) : ℚ) / 1000000

/-- The breach test of `_detect_equal_highs`: some candle in `[i+1, j)` or in
`[start, i)` has a high above `max(price_i, price_j) + tolerance`. -/
def highBreached (cfg : AnalyzerCfg) (candles : List Candle) (start i j : ℕ)
    (price_i price_j : ℚ) : Bool :=
  ((List.range' (i+1) (j - (i+1))).any fun k =>
    decide (max price_i price_j + cfg.equal_tolerance < (candles.getD k default).high))
  || ((List.range' start (i - start)).any fun k =>
    decide (max price_i price_j + cfg.equal_tolerance < (candles.getD k default).high))

/-- `_detect_equal_highs`: pairs `(i, j)`, `j ≥ i+2`, of 6-decimal-rounded
highs within tolerance, with no breach, emitted with `i` ascending then `j`
ascending. -/
def detect_equal_highs (cfg : AnalyzerCfg) (candles : List Candle) (start : ℕ) : List Signal :=
  let n := candles.length
  (List.range' start (n - 1 - start)).flatMap fun i =>
    (List.range' (i+2) (n - (i+2))).filterMap fun j =>
      let price_i := round6 (candles.getD i default).high
      let price_j := round6 (candles.getD j default).high
      if |price_i - price_j| ≤ cfg.equal_tolerance then
        if highBreached cfg candles start i j price_i price_j then none
        else some (Signal.liquidityPool Side.buy price_i
          [(candles.getD i default).time, (candles.getD j default).time])
      else none

/-- The breach test of `_detect_equal_lows`: some candle in `[i+1, j)` or in
`[start, i)` has a low below `min(price_i, price_j) - tolerance`. -/
def lowBreached (cfg : AnalyzerCfg) (candles : List Candle) (start i j : ℕ)
    (price_i price_j : ℚ) : Bool :=
  ((List.range' (i+1) (j - (i+1))).any fun k =>
    decide ((candles.getD k default).low < min price_i price_j - cfg.equal_tolerance))
  || ((List.range' start (i - start)).any fun k =>
    decide ((candles.getD k default).low < min price_i price_j - cfg.equal_tolerance))

/-- `_detect_equal_lows`, mirror of `detect_equal_highs` on lows. -/
def detect_equal_lows (cfg : AnalyzerCfg) (candles : List Candle) (start : ℕ) : List Signal :=
  let n := candles.length
  (List.range' start (n - 1 - start)).flatMap fun i =>
    (List.range' (i+2) (n - (i+2))).filterMap fun j =>
      let price_i := round6 (candles.getD i default).low
      let price_j := round6 (candles.getD j default).low
      if |price_i - price_j| ≤ cfg.equal_tolerance then
        if lowBreached cfg candles start i j price_i price_j then none
        else some (Signal.liquidityPool Side.sell price_i
          [(candles.getD i default).time, (candles.getD j default).time])
      else none

/-- `_in_silver_window`: `h = hour + minute/60` lies in `[3,4)`, `[10,11)` or
`[14,15)` (Eastern clock). -/
def in_silver_window (t : Time) : Bool :=
  let h : ℚ := (t.hour : ℚ) + ((t.minute : ℕ) : ℚ) / 60
  decide ((3 ≤ h ∧ h < 4) ∨ (10 ≤ h ∧ h < 11) ∨ (14 ≤ h ∧ h < 15))

/-- `_detect_fvg`: three same-direction candles whose outer wicks do not
overlap, anchored at the third candle's time, kept only inside a silver
window. -/
def detect_fvg (candles : List Candle) (start : ℕ) : List Signal :=
  (List.range' start (candles.length - 2 - start)).filterMap fun i =>
    let c0 := candles.getD i default
    let c1 := candles.getD (i+1) default
    let c2 := candles.getD (i+2) default
    let bullish := c0.open_ < c0.close ∧ c1.open_ < c1.close ∧ c2.open_ < c2.close
    let bearish := c0.close < c0.open_ ∧ c1.close < c1.open_ ∧ c2.close < c2.open_
    if bullish ∧ c0.high < c2.low then
      if in_silver_window c2.time then
        some (Signal.fairValueGap GapSide.bullish c0.high c2.low c2.time)
      else none
    else if bearish ∧ c2.high < c0.low then
      if in_silver_window c2.time then
        some (Signal.fairValueGap GapSide.bearish c2.high c0.low c2.time)
      else none
    else none

/-- Minimum body size threshold of `_detect_order_blocks` (0.0002). -/
def min_body_size : ℚ := 2/10000

/-- Minimum volume threshold of `_detect_order_blocks`. -/
def min_volume : ℚ := 1000

/-- Python truthiness of an optional float: `None` and `0` are falsy. -/
def volTruthy : Option ℚ → Bool
  | none => false
  | some v => decide (v ≠ 0)

/-- Sort key of `_detect_order_blocks`:
`x.get('body_size', 0) * (x.get('volume', 0) or 0)`. -/
def ob_sort_key : Signal → ℚ
  | Signal.orderBlock _ _ _ body_size volume => body_size * volume.getD 0
  | _ => 0

/-- One candidate of the `_detect_order_blocks` loop body at index `i`:
`none` when skipped, the emitted event otherwise.  Only meaningful when
`c0.open_ ≠ 0` (otherwise Python raises before this point). -/
def ob_candidate (candles : List Candle) (i : ℕ) : Option Signal :=
  let c0 := candles.getD i default
  let c1 := candles.getD (i+1) default
  let c2 := candles.getD (i+2) default
  let c3 := candles.getD (i+3) default
  let body_size := |c0.close - c0.open_| / c0.open_
  if body_size < min_body_size ∨ (volTruthy c0.volume ∧ c0.volume.getD 0 < min_volume) then
    none
  else if c1.open_ < c1.close ∧ c2.open_ < c2.close ∧ c3.open_ < c3.close then
    if c0.close < c0.open_ then
      some (Signal.orderBlock GapSide.bullish (c0.low, c0.high) c0.time body_size c0.volume)
    else none
  else if c1.close < c1.open_ ∧ c2.close < c2.open_ ∧ c3.close < c3.open_ then
    if c0.open_ < c0.close then
      some (Signal.orderBlock GapSide.bearish (c0.low, c0.high) c0.time body_size c0.volume)
    else none
  else none

/-- The main loop of `_detect_order_blocks` over the index list, raising
(`Except.error`) at the first index whose candle has a zero open. -/
def scan_order_blocks (candles : List Candle) : List ℕ → Except Unit (List Signal)
  | [] => Except.ok []
  | i :: rest =>
    if (candles.getD i default).open_ = 0 then Except.error () else
    match scan_order_blocks candles rest with
    | Except.error e => Except.error e
    | Except.ok tail =>
      Except.ok (match ob_candidate candles i with
        | some ev => ev :: tail
        | none => tail)

/-- `_detect_order_blocks`: scan `[start, n-3)`, then stable-sort descending
by `ob_sort_key` (Python `list.sort(key=..., reverse=True)`). -/
def detect_order_blocks (candles : List Candle) (start : ℕ) : Except Unit (List Signal) :=
  match scan_order_blocks candles (List.range' start (candles.length - 3 - start)) with
  | Except.error e => Except.error e
  | Except.ok events =>
    Except.ok (events.mergeSort fun a b => decide (ob_sort_key b ≤ ob_sort_key a))

/-- `PatternAnalyzer.analyze`: fewer than 3 candles gives the empty signal
set; otherwise concatenate the four detectors over the last `lookback`
candles (equal highs, equal lows, gaps, order blocks). -/
def analyze (cfg : AnalyzerCfg) (candles : List Candle) : Except Unit (List Signal) :=
  let n := candles.length
  if n < 3 then Except.ok [] else
  let start := n - cfg.lookback
  match detect_order_blocks candles start with
  | Except.error e => Except.error e
  | Except.ok obs =>
    Except.ok (detect_equal_highs cfg candles start ++ detect_equal_lows cfg candles start
      ++ detect_fvg candles start ++ obs)

/-- The numeric part of the dict `DecisionAgent.evaluate_signals` returns
(the rationale string is not modelled). -/
structure TradeResult where
  action : String
  entry_zone : Option (ℚ × ℚ)
  stop_loss : Option ℚ
  take_profit : Option ℚ
deriving DecidableEq, Repr

/-- The default no-trade result of `evaluate_signals`. -/
def noTradeResult : TradeResult :=
  { action := "none", entry_zone := none, stop_loss := none, take_profit := none }

/-- `calc_2r`: entry plus/minus twice the risk. -/
def calc_2r (entry sl : ℚ) (direction : String) : ℚ :=
  let risk := |entry - sl|
  if direction = "long" then entry + 2 * risk else entry - 2 * risk

/-- Test from `evaluate_signals` line 9: `LiquidityPool` with side "buy". -/
def is_buy_lp : Signal → Bool
  | Signal.liquidityPool Side.buy _ _ => true
  | _ => false

/-- Test from `evaluate_signals` line 10: `LiquidityPool` with side "sell". -/
def is_sell_lp : Signal → Bool
  | Signal.liquidityPool Side.sell _ _ => true
  | _ => false

/-- Bullish fair value gap test of `evaluate_signals`. -/
def is_bullish_fvg : Signal → Bool
  | Signal.fairValueGap GapSide.bullish _ _ _ => true
  | _ => false

/-- Bearish fair value gap test of `evaluate_signals`. -/
def is_bearish_fvg : Signal → Bool
  | Signal.fairValueGap GapSide.bearish _ _ _ => true
  | _ => false

/-- `sig['gap_low']` (only ever read on fair value gaps). -/
def Signal.gap_low : Signal → ℚ
  | Signal.fairValueGap _ gl _ _ => gl
  | _ => 0

/-- `sig['gap_high']` (only ever read on fair value gaps). -/
def Signal.gap_high : Signal → ℚ
  | Signal.fairValueGap _ _ gh _ => gh
  | _ => 0

/-- `DecisionAgent.evaluate_signals`.  Note the flags are exactly the
source's: `has_sell_liquidity` tests side "buy" pools and `has_buy_liquidity`
tests side "sell" pools, and rule 1 (short) is guarded by
`has_buy_liquidity`, rule 2 (long) by `has_sell_liquidity`. -/
def evaluate_signals (signals : List Signal) : TradeResult :=
  let has_sell_liquidity := signals.any is_buy_lp
  let has_buy_liquidity := signals.any is_sell_lp
  let bullish_fvg := signals.filter is_bullish_fvg
  let bearish_fvg := signals.filter is_bearish_fvg
  let has_bullish_fvg := decide (0 < bullish_fvg.length)
  let has_bearish_fvg := decide (0 < bearish_fvg.length)
  if has_buy_liquidity && has_bearish_fvg then
    match bearish_fvg.getLast? with
    | none => noTradeResult
    | some sig =>
      let entry := (sig.gap_low + sig.gap_high) / 2
      let stop_loss := sig.gap_high * (1001/1000)
      { action := "sell", entry_zone := some (sig.gap_low, sig.gap_high),
        stop_loss := some stop_loss, take_profit := some (calc_2r entry stop_loss "short") }
  else if has_sell_liquidity && has_bullish_fvg then
    match bullish_fvg.getLast? with
    | none => noTradeResult
    | some sig =>
      let entry := (sig.gap_low + sig.gap_high) / 2
      let stop_loss := sig.gap_low * (999/1000)
      { action := "buy", entry_zone := some (sig.gap_low, sig.gap_high),
        stop_loss := some stop_loss, take_profit := some (calc_2r entry stop_loss "long") }
  else noTradeResult

/-- Test for the `OrderBlock` variant (`sig.get("type") == "OrderBlock"`,
decision agent line 13). -/
def is_order_block : Signal → Bool
  | Signal.orderBlock _ _ _ _ _ => true
  | _ => false

/-- Concrete three-candle run probing the rounding of liquidity-pool
levels: highs 1 + 1e-7, 1/2 and 1, analysed with tolerance 0. -/
def pool_cex_candles : List Candle :=
  [⟨⟨5, 0⟩, 1, 10000001/10000000, 1/2, 3/4, none⟩,
   ⟨⟨6, 0⟩, 1, 1/2, 1/4, 1/2, none⟩,
   ⟨⟨7, 0⟩, 1, 1, 1/8, 1/4, none⟩]

/-- Concrete five-candle instance of the equal-highs scenario (endpoint
highs 100 and 100.0005, intervening highs not exceeding 100.0015) in which
the three intervening bars also have high 100, so many pairs qualify. -/
def scenario_cex_candles : List Candle :=
  [⟨⟨5, ⟨0, by norm_num⟩⟩, 90, 100, 89, 91, none⟩,
   ⟨⟨5, ⟨1, by norm_num⟩⟩, 91, 100, 90, 92, none⟩,
   ⟨⟨5, ⟨2, by norm_num⟩⟩, 92, 100, 91, 93, none⟩,
   ⟨⟨5, ⟨3, by norm_num⟩⟩, 93, 100, 92, 94, none⟩,
   ⟨⟨5, ⟨4, by norm_num⟩⟩, 94, 200001/2000, 93, 95, none⟩]

/-! ## Helper lemmas -/

/-- Interval form of membership in `List.range'`. -/
theorem mem_range'_iff {s n m : ℕ} : m ∈ List.range' s n ↔ s ≤ m ∧ m < s + n := by
  simp only [List.mem_range']
  constructor
  · rintro ⟨i, hi, rfl⟩
    omega
  · intro h
    exact ⟨m - s, by omega, by omega⟩

/-- Every signal the equal-highs detector emits is a buy-side liquidity pool. -/
theorem mem_equal_highs_shape {cfg : AnalyzerCfg} {cs : List Candle} {st : ℕ} {s : Signal}
    (h : s ∈ detect_equal_highs cfg cs st) :
    ∃ p ts, s = Signal.liquidityPool Side.buy p ts := by
  simp only [detect_equal_highs, List.mem_flatMap, List.mem_filterMap] at h
  obtain ⟨i, _, j, _, hs⟩ := h
  split at hs
  · split at hs
    · exact absurd hs (by simp)
    · exact ⟨_, _, (Option.some.injEq _ _ ▸ hs).symm⟩
  · exact absurd hs (by simp)

/-- Every signal the equal-lows detector emits is a sell-side liquidity pool. -/
theorem mem_equal_lows_shape {cfg : AnalyzerCfg} {cs : List Candle} {st : ℕ} {s : Signal}
    (h : s ∈ detect_equal_lows cfg cs st) :
    ∃ p ts, s = Signal.liquidityPool Side.sell p ts := by
  simp only [detect_equal_lows, List.mem_flatMap, List.mem_filterMap] at h
  obtain ⟨i, _, j, _, hs⟩ := h
  split at hs
  · split at hs
    · exact absurd hs (by simp)
    · exact ⟨_, _, (Option.some.injEq _ _ ▸ hs).symm⟩
  · exact absurd hs (by simp)

/-- Every signal the gap detector emits is a fair value gap. -/
theorem mem_fvg_shape {cs : List Candle} {st : ℕ} {s : Signal}
    (h : s ∈ detect_fvg cs st) :
    ∃ sd gl gh t, s = Signal.fairValueGap sd gl gh t := by
  simp only [detect_fvg, List.mem_filterMap] at h
  obtain ⟨i, _, hs⟩ := h
  split at hs
  · split at hs
    · exact ⟨_, _, _, _, (Option.some.injEq _ _ ▸ hs).symm⟩
    · exact absurd hs (by simp)
  · split at hs
    · split at hs
      · exact ⟨_, _, _, _, (Option.some.injEq _ _ ▸ hs).symm⟩
      · exact absurd hs (by simp)
    · exact absurd hs (by simp)

/-- Every signal the order-block scan emits is an order block. -/
theorem mem_scan_ob_shape {cs : List Candle} {idxs : List ℕ} {evs : List Signal} {s : Signal}
    (h : scan_order_blocks cs idxs = Except.ok evs) (hm : s ∈ evs) :
    ∃ sd z t bs v, s = Signal.orderBlock sd z t bs v := by
  induction idxs generalizing evs with
  | nil =>
    simp only [scan_order_blocks] at h
    cases h
    simp at hm
  | cons i rest ih =>
    simp only [scan_order_blocks] at h
    split at h
    · cases h
    · rename_i htail
      split at h
      · cases h
      · rename_i tail htl
        cases h
        revert hm
        split
        · rename_i ev hev
          intro hm
          rcases List.mem_cons.mp hm with rfl | hm
          · simp only [ob_candidate] at hev
            split at hev
            · cases hev
            · split at hev
              · split at hev
                · exact ⟨_, _, _, _, _, (Option.some.injEq _ _ ▸ hev).symm⟩
                · cases hev
              · split at hev
                · split at hev
                  · exact ⟨_, _, _, _, _, (Option.some.injEq _ _ ▸ hev).symm⟩
                  · cases hev
                · cases hev
          · exact ih htl hm
        · intro hm
          exact ih htl hm

/-- Splitting a successful `analyze` run into its four detector parts. -/
theorem analyze_ok_elim {cfg : AnalyzerCfg} {cs : List Candle} {out : List Signal}
    (h : analyze cfg cs = Except.ok out) (h3 : ¬ cs.length < 3) :
    ∃ evs, scan_order_blocks cs
        (List.range' (cs.length - cfg.lookback) (cs.length - 3 - (cs.length - cfg.lookback)))
        = Except.ok evs ∧
      out = detect_equal_highs cfg cs (cs.length - cfg.lookback)
        ++ detect_equal_lows cfg cs (cs.length - cfg.lookback)
        ++ detect_fvg cs (cs.length - cfg.lookback)
        ++ evs.mergeSort fun a b => decide (ob_sort_key b ≤ ob_sort_key a) := by
  simp only [analyze] at h
  rw [if_neg h3] at h
  simp only [detect_order_blocks] at h
  split at h
  · cases h
  · rename_i obs hob
    split at hob
    · cases hob
    · rename_i evs hscan
      cases hob
      cases h
      exact ⟨evs, hscan, rfl⟩

/-! ## Claim theorems -/

/-- C1 (code evaluation at the failing input): a signal set holding a
buy-side liquidity pool and a bearish fair value gap makes
`evaluate_signals` return the no-trade result, because rule 1's guard
`has_buy_liquidity` tests for side "sell" pools. -/
theorem evaluate_signals_buy_pool_bearish_gap_none :
    evaluate_signals
      [Signal.liquidityPool Side.buy 100 [⟨5, 0⟩, ⟨5, 0⟩],
       Signal.fairValueGap GapSide.bearish 1 2 ⟨5, 0⟩] = noTradeResult := by
  decide

/-- C2 (code evaluation at the failing input): a signal set holding a
sell-side liquidity pool and a bullish fair value gap makes
`evaluate_signals` return the no-trade result: rule 1's guard accepts the
sell-side pool but finds no bearish gap, and rule 2's guard
`has_sell_liquidity` tests for side "buy" pools. -/
theorem evaluate_signals_sell_pool_bullish_gap_none :
    evaluate_signals
      [Signal.liquidityPool Side.sell 100 [⟨5, 0⟩, ⟨5, 0⟩],
       Signal.fairValueGap GapSide.bullish 1 2 ⟨5, 0⟩] = noTradeResult := by
  decide

/-- C9: `analyze` on fewer than three candles returns the empty signal set
(and, being defined by `Except.ok`, raises nothing). -/
theorem analyze_insufficient_data (cfg : AnalyzerCfg) (candles : List Candle)
    (h : candles.length < 3) : analyze cfg candles = Except.ok [] := by
  unfold analyze
  rw [if_pos h]

/-- C9 witness: the empty candle list. -/
theorem analyze_insufficient_data_witness : analyze {} ([] : List Candle) = Except.ok [] :=
  analyze_insufficient_data {} [] (by decide)

/-- C7: a signal set holding both a qualifying short setup (a buy-side
liquidity pool with a bearish fair value gap) and a qualifying long setup (a
sell-side liquidity pool with a bullish fair value gap) gets the short
result: rule 1 precedes rule 2, and `evaluate_signals` returns the sell
suggestion built from the last bearish gap in signal order. -/
theorem decision_priority_sell (signals : List Signal) (sig : Signal)
    (hshort_lp : ∃ s ∈ signals, is_buy_lp s = true)
    (hlong_lp : ∃ s ∈ signals, is_sell_lp s = true)
    (hlong_fvg : ∃ s ∈ signals, is_bullish_fvg s = true)
    (hlast : (signals.filter is_bearish_fvg).getLast? = some sig) :
    evaluate_signals signals =
      { action := "sell",
        entry_zone := some (sig.gap_low, sig.gap_high),
        stop_loss := some (sig.gap_high * (1001/1000)),
        take_profit := some (calc_2r ((sig.gap_low + sig.gap_high) / 2)
          (sig.gap_high * (1001/1000)) "short") } := by
  have h1 : signals.any is_sell_lp = true := by
    obtain ⟨s, hs, h⟩ := hlong_lp
    exact List.any_eq_true.mpr ⟨s, hs, h⟩
  have h2 : decide (0 < (signals.filter is_bearish_fvg).length) = true := by
    cases hl : signals.filter is_bearish_fvg with
    | nil => rw [hl] at hlast; cases hlast
    | cons a l => simp
  simp only [evaluate_signals, h1, h2, Bool.and_self, if_true, hlast]

/-- C7 witness: all four signal kinds present at once. -/
theorem decision_priority_sell_witness :
    (evaluate_signals
      [Signal.liquidityPool Side.buy 100 [⟨5, 0⟩],
       Signal.liquidityPool Side.sell 90 [⟨5, 0⟩],
       Signal.fairValueGap GapSide.bullish 1 2 ⟨5, 0⟩,
       Signal.fairValueGap GapSide.bearish 3 4 ⟨5, 0⟩]).action = "sell" := by
  have h := decision_priority_sell
    [Signal.liquidityPool Side.buy 100 [⟨5, 0⟩],
     Signal.liquidityPool Side.sell 90 [⟨5, 0⟩],
     Signal.fairValueGap GapSide.bullish 1 2 ⟨5, 0⟩,
     Signal.fairValueGap GapSide.bearish 3 4 ⟨5, 0⟩]
    (Signal.fairValueGap GapSide.bearish 3 4 ⟨5, 0⟩)
    (by decide) (by decide) (by decide) (by decide)
  rw [h]

/-- Thresholds hold for every event of the order-block scan: the guard at
line 151 rejects small bodies and truthy volumes below the minimum. -/
theorem scan_ob_thresholds {cs : List Candle} {idxs : List ℕ} {evs : List Signal}
    (h : scan_order_blocks cs idxs = Except.ok evs)
    {sd : GapSide} {z : ℚ × ℚ} {t : Time} {bs : ℚ} {vol : Option ℚ}
    (hm : Signal.orderBlock sd z t bs vol ∈ evs) :
    min_body_size ≤ bs ∧ (volTruthy vol = true → min_volume ≤ vol.getD 0) := by
  induction idxs generalizing evs with
  | nil =>
    simp only [scan_order_blocks] at h
    cases h
    simp at hm
  | cons i rest ih =>
    simp only [scan_order_blocks] at h
    split at h
    · cases h
    · split at h
      · cases h
      · rename_i tail htl
        cases h
        revert hm
        split
        · rename_i ev hev
          intro hm
          rcases List.mem_cons.mp hm with hev' | hm
          · rw [← hev'] at hev
            simp only [ob_candidate] at hev
            split at hev
            · cases hev
            · rename_i hguard
              push_neg at hguard
              obtain ⟨hbody, hvol⟩ := hguard
              split at hev
              · split at hev
                · rw [Option.some.injEq] at hev
                  cases hev
                  exact ⟨hbody, fun hv => hvol hv⟩
                · cases hev
              · split at hev
                · split at hev
                  · rw [Option.some.injEq] at hev
                    cases hev
                    exact ⟨hbody, fun hv => hvol hv⟩
                  · cases hev
                · cases hev
          · exact ih htl hm
        · intro hm
          exact ih htl hm

/-- C3 (amended): every order block `analyze` emits has
`body_size ≥ 0.0002`, and whenever the source candle's volume is present
and nonzero (Python-truthy) it is at least 1000; candidates with a small
body, or with truthy volume below 1000, are rejected. -/
theorem order_block_thresholds (cfg : AnalyzerCfg) (candles : List Candle)
    (out : List Signal) (sd : GapSide) (zone : ℚ × ℚ) (t : Time) (bs : ℚ) (vol : Option ℚ)
    (h : analyze cfg candles = Except.ok out)
    (hmem : Signal.orderBlock sd zone t bs vol ∈ out) :
    min_body_size ≤ bs ∧ (volTruthy vol = true → min_volume ≤ vol.getD 0) := by
  by_cases h3 : candles.length < 3
  · simp only [analyze] at h
    rw [if_pos h3] at h
    cases h
    simp at hmem
  · obtain ⟨evs, hscan, rfl⟩ := analyze_ok_elim h h3
    rcases List.mem_append.mp hmem with hmem' | hob
    · rcases List.mem_append.mp hmem' with hmem'' | hfvg
      · rcases List.mem_append.mp hmem'' with heh | hel
        · obtain ⟨p, ts, hshape⟩ := mem_equal_highs_shape heh
          cases hshape
        · obtain ⟨p, ts, hshape⟩ := mem_equal_lows_shape hel
          cases hshape
      · obtain ⟨sd', gl, gh, t', hshape⟩ := mem_fvg_shape hfvg
        cases hshape
    · exact scan_ob_thresholds hscan (List.mem_mergeSort.mp hob)

set_option maxHeartbeats 1000000 in
/-- C3 witness: a strong bearish candle with volume 5000 before a three-bar
bullish displacement. -/
theorem order_block_thresholds_witness :
    min_body_size ≤ 1/1000 ∧
      (volTruthy (some 5000) = true → min_volume ≤ (some (5000 : ℚ)).getD 0) :=
  order_block_thresholds {}
    [⟨⟨5, 0⟩, 100, 101, 99, 999/10, some 5000⟩,
     ⟨⟨5, 0⟩, 100, 102, 99, 101, some 5000⟩,
     ⟨⟨5, 0⟩, 101, 103, 100, 102, some 5000⟩,
     ⟨⟨5, 0⟩, 102, 104, 101, 103, some 5000⟩]
    [Signal.orderBlock GapSide.bullish (99, 101) ⟨5, 0⟩ (1/1000) (some 5000)]
    GapSide.bullish (99, 101) ⟨5, 0⟩ (1/1000) (some 5000)
    (by norm_num [analyze, detect_equal_highs, detect_equal_lows, detect_fvg,
      detect_order_blocks, scan_order_blocks, ob_candidate, highBreached, lowBreached,
      in_silver_window, round6, roundHalfEven, volTruthy, min_body_size, min_volume,
      ob_sort_key, List.range', List.mergeSort, abs_of_nonneg, abs_of_nonpos])
    (by simp)

set_option maxHeartbeats 1000000 in
/-- C3 counterexample: volume 0 is present and below the minimum 1000, yet
the candidate is not rejected — Python's `c0.volume and c0.volume < 1000`
guard is skipped for falsy volume 0, and the order block is emitted. -/
theorem order_block_zero_volume_emitted :
    analyze {}
      [⟨⟨5, 0⟩, 100, 101, 99, 999/10, some 0⟩,
       ⟨⟨5, 0⟩, 100, 102, 99, 101, some 5000⟩,
       ⟨⟨5, 0⟩, 101, 103, 100, 102, some 5000⟩,
       ⟨⟨5, 0⟩, 102, 104, 101, 103, some 5000⟩]
      = Except.ok [Signal.orderBlock GapSide.bullish (99, 101) ⟨5, 0⟩ (1/1000) (some 0)]
    ∧ (0 : ℚ) < min_volume := by
  constructor
  · norm_num [analyze, detect_equal_highs, detect_equal_lows, detect_fvg,
      detect_order_blocks, scan_order_blocks, ob_candidate, highBreached, lowBreached,
      in_silver_window, round6, roundHalfEven, volTruthy, min_body_size, min_volume,
      ob_sort_key, List.range', List.mergeSort, abs_of_nonneg, abs_of_nonpos]
  · norm_num [min_volume]

/-- Every event of the gap detector is a gap with ordered bounds, kept only
when the third candle's Eastern time passes the window test. -/
theorem mem_fvg_props {cs : List Candle} {st : ℕ} {s : Signal}
    (h : s ∈ detect_fvg cs st) :
    ∃ sd gl gh t, s = Signal.fairValueGap sd gl gh t ∧ gl < gh ∧
      in_silver_window t = true := by
  simp only [detect_fvg, List.mem_filterMap] at h
  obtain ⟨i, _, hs⟩ := h
  split at hs
  · rename_i hcond
    split at hs
    · rename_i hwin
      rw [Option.some.injEq] at hs
      exact ⟨_, _, _, _, hs.symm, hcond.2, hwin⟩
    · cases hs
  · split at hs
    · rename_i hcond
      split at hs
      · rename_i hwin
        rw [Option.some.injEq] at hs
        exact ⟨_, _, _, _, hs.symm, hcond.2, hwin⟩
      · cases hs
    · cases hs

/-- The clock test of `_in_silver_window`, rephrased on minutes past
midnight: the three windows are the half-open ranges [180,240), [600,660)
and [840,900). -/
theorem in_silver_window_iff (t : Time) :
    in_silver_window t = true ↔
      (180 ≤ 60 * t.hour + (t.minute : ℕ) ∧ 60 * t.hour + (t.minute : ℕ) < 240) ∨
      (600 ≤ 60 * t.hour + (t.minute : ℕ) ∧ 60 * t.hour + (t.minute : ℕ) < 660) ∨
      (840 ≤ 60 * t.hour + (t.minute : ℕ) ∧ 60 * t.hour + (t.minute : ℕ) < 900) := by
  have h60 : (0 : ℚ) < 60 := by norm_num
  have e : (t.hour : ℚ) + ((t.minute : ℕ) : ℚ) / 60
      = ((60 * t.hour + (t.minute : ℕ) : ℕ) : ℚ) / 60 := by
    push_cast
    field_simp
    ring
  simp only [in_silver_window, decide_eq_true_eq, e, le_div_iff₀ h60, div_lt_iff₀ h60]
  norm_cast

/-- C5: every fair value gap `analyze` emits has `gap_low < gap_high`, and
its anchor timestamp, read on the configured Eastern clock, lies in one of
the three half-open windows 03:00-04:00, 10:00-11:00, 14:00-15:00. -/
theorem fvg_bounds_and_window (cfg : AnalyzerCfg) (candles : List Candle)
    (out : List Signal) (sd : GapSide) (gl gh : ℚ) (t : Time)
    (h : analyze cfg candles = Except.ok out)
    (hmem : Signal.fairValueGap sd gl gh t ∈ out) :
    gl < gh ∧
      ((180 ≤ 60 * t.hour + (t.minute : ℕ) ∧ 60 * t.hour + (t.minute : ℕ) < 240) ∨
       (600 ≤ 60 * t.hour + (t.minute : ℕ) ∧ 60 * t.hour + (t.minute : ℕ) < 660) ∨
       (840 ≤ 60 * t.hour + (t.minute : ℕ) ∧ 60 * t.hour + (t.minute : ℕ) < 900)) := by
  by_cases h3 : candles.length < 3
  · simp only [analyze] at h
    rw [if_pos h3] at h
    cases h
    simp at hmem
  · obtain ⟨evs, hscan, rfl⟩ := analyze_ok_elim h h3
    rcases List.mem_append.mp hmem with hmem' | hob
    · rcases List.mem_append.mp hmem' with hmem'' | hfvg
      · rcases List.mem_append.mp hmem'' with heh | hel
        · obtain ⟨p, ts, hc⟩ := mem_equal_highs_shape heh
          cases hc
        · obtain ⟨p, ts, hc⟩ := mem_equal_lows_shape hel
          cases hc
      · obtain ⟨sd', gl', gh', t', heq, hlt, hwin⟩ := mem_fvg_props hfvg
        cases heq
        exact ⟨hlt, (in_silver_window_iff t).mp hwin⟩
    · obtain ⟨sd', z, t', bs, v, hc⟩ := mem_scan_ob_shape hscan (List.mem_mergeSort.mp hob)
      cases hc

set_option maxHeartbeats 1000000 in
/-- C5 witness: a three-bar bullish impulse at 10:30 Eastern leaving the gap
(10.5, 11). -/
theorem fvg_bounds_and_window_witness :
    (21/2 : ℚ) < 11 ∧
      ((180 ≤ 630 ∧ 630 < 240) ∨ (600 ≤ 630 ∧ 630 < 660) ∨ (840 ≤ 630 ∧ 630 < 900)) :=
  fvg_bounds_and_window {}
    [⟨⟨10, ⟨30, by norm_num⟩⟩, 10, 21/2, 9, 52/5, some 2000⟩,
     ⟨⟨10, ⟨30, by norm_num⟩⟩, 52/5, 56/5, 51/5, 11, some 2000⟩,
     ⟨⟨10, ⟨30, by norm_num⟩⟩, 11, 12, 11, 59/5, some 2000⟩]
    [Signal.fairValueGap GapSide.bullish (21/2) 11 ⟨10, ⟨30, by norm_num⟩⟩]
    GapSide.bullish (21/2) 11 ⟨10, ⟨30, by norm_num⟩⟩
    (by norm_num [analyze, detect_equal_highs, detect_equal_lows, detect_fvg,
      detect_order_blocks, scan_order_blocks, ob_candidate, highBreached, lowBreached,
      in_silver_window, round6, roundHalfEven, volTruthy, min_body_size, min_volume,
      ob_sort_key, List.range', List.mergeSort, List.filterMap_cons, abs_of_nonneg,
      abs_of_nonpos])
    (by simp)

/-- C6: the order blocks `analyze` emits appear in non-increasing order of
the ranking key `body_size * (volume or 0)` — the final stable descending
sort of `_detect_order_blocks`. -/
theorem order_blocks_sorted_desc (cfg : AnalyzerCfg) (candles : List Candle)
    (out : List Signal) (h : analyze cfg candles = Except.ok out) :
    (out.filter is_order_block).Pairwise (fun a b => ob_sort_key b ≤ ob_sort_key a) := by
  by_cases h3 : candles.length < 3
  · simp only [analyze] at h
    rw [if_pos h3] at h
    cases h
    simp
  · obtain ⟨evs, hscan, rfl⟩ := analyze_ok_elim h h3
    rw [List.filter_append, List.filter_append, List.filter_append]
    have heh : (detect_equal_highs cfg candles (candles.length - cfg.lookback)).filter
        is_order_block = [] :=
      List.filter_eq_nil_iff.mpr fun s hs => by
        obtain ⟨p, ts, rfl⟩ := mem_equal_highs_shape hs
        simp [is_order_block]
    have hel : (detect_equal_lows cfg candles (candles.length - cfg.lookback)).filter
        is_order_block = [] :=
      List.filter_eq_nil_iff.mpr fun s hs => by
        obtain ⟨p, ts, rfl⟩ := mem_equal_lows_shape hs
        simp [is_order_block]
    have hfv : (detect_fvg candles (candles.length - cfg.lookback)).filter
        is_order_block = [] :=
      List.filter_eq_nil_iff.mpr fun s hs => by
        obtain ⟨sd, gl, gh, t, rfl⟩ := mem_fvg_shape hs
        simp [is_order_block]
    have hob : ((evs.mergeSort fun a b => decide (ob_sort_key b ≤ ob_sort_key a)).filter
        is_order_block)
        = evs.mergeSort fun a b => decide (ob_sort_key b ≤ ob_sort_key a) :=
      List.filter_eq_self.mpr fun s hs => by
        obtain ⟨sd, z, t, bs, v, rfl⟩ := mem_scan_ob_shape hscan (List.mem_mergeSort.mp hs)
        simp [is_order_block]
    rw [heh, hel, hfv, hob]
    simp only [List.nil_append]
    refine List.Pairwise.imp ?_ (List.sorted_mergeSort ?_ ?_ evs)
    · intro a b hab
      exact of_decide_eq_true hab
    · intro a b c hab hbc
      have h1 := of_decide_eq_true hab
      have h2 := of_decide_eq_true hbc
      exact decide_eq_true (le_trans h2 h1)
    · intro a b
      rcases le_total (ob_sort_key b) (ob_sort_key a) with hle | hle
      · simp [decide_eq_true hle]
      · simp [decide_eq_true hle]

set_option maxHeartbeats 1000000 in
/-- C6 witness: the single emitted order block of a four-candle run is
trivially sorted. -/
theorem order_blocks_sorted_desc_witness :
    (([Signal.orderBlock GapSide.bullish (99, 101) ⟨5, 0⟩ (1/1000) (some 5000)]).filter
      is_order_block).Pairwise (fun a b => ob_sort_key b ≤ ob_sort_key a) :=
  order_blocks_sorted_desc {}
    [⟨⟨5, 0⟩, 100, 101, 99, 999/10, some 5000⟩,
     ⟨⟨5, 0⟩, 100, 102, 99, 101, some 5000⟩,
     ⟨⟨5, 0⟩, 101, 103, 100, 102, some 5000⟩,
     ⟨⟨5, 0⟩, 102, 104, 101, 103, some 5000⟩]
    [Signal.orderBlock GapSide.bullish (99, 101) ⟨5, 0⟩ (1/1000) (some 5000)]
    (by norm_num [analyze, detect_equal_highs, detect_equal_lows, detect_fvg,
      detect_order_blocks, scan_order_blocks, ob_candidate, highBreached, lowBreached,
      in_silver_window, round6, roundHalfEven, volTruthy, min_body_size, min_volume,
      ob_sort_key, List.range', List.mergeSort, List.filterMap_cons, abs_of_nonneg,
      abs_of_nonpos])

/-- The order-block scan succeeds exactly when no scanned index holds a
candle with zero open price (the divisor of the body-size computation). -/
theorem scan_ok_iff {cs : List Candle} {idxs : List ℕ} :
    (∃ evs, scan_order_blocks cs idxs = Except.ok evs) ↔
      ∀ i ∈ idxs, (cs.getD i default).open_ ≠ 0 := by
  induction idxs with
  | nil => simp [scan_order_blocks]
  | cons i rest ih =>
    simp only [scan_order_blocks]
    constructor
    · rintro ⟨evs, hevs⟩
      split at hevs
      · cases hevs
      · rename_i hopen
        intro j hj
        rcases List.mem_cons.mp hj with rfl | hj
        · exact hopen
        · revert hevs
          split
          · intro hc
            cases hc
          · rename_i tail htl
            intro _
            exact (ih.mp ⟨tail, htl⟩) j hj
    · intro hall
      rw [if_neg (hall i (List.mem_cons_self i rest))]
      obtain ⟨tail, htl⟩ := ih.mpr fun j hj => hall j (List.mem_cons_of_mem _ hj)
      rw [htl]
      exact ⟨_, rfl⟩

/-- C10: `analyze` returns normally exactly when every candle at an
order-block window start (index `i` with `start ≤ i` and `i + 3 < n`, the
scanned range) has a nonzero open price; a zero open at such an index is
the one way `analyze` fails (ZeroDivisionError in the body-size division). -/
theorem analyze_total_iff (cfg : AnalyzerCfg) (candles : List Candle) :
    (∃ out, analyze cfg candles = Except.ok out) ↔
      ∀ i, candles.length - cfg.lookback ≤ i → i + 3 < candles.length →
        (candles.getD i default).open_ ≠ 0 := by
  by_cases h3 : candles.length < 3
  · constructor
    · intro _ i h1 h2
      exact absurd h2 (by omega)
    · intro _
      refine ⟨[], ?_⟩
      simp only [analyze]
      rw [if_pos h3]
  · constructor
    · rintro ⟨out, hout⟩
      simp only [analyze] at hout
      rw [if_neg h3] at hout
      split at hout
      · cases hout
      · rename_i obs hob
        simp only [detect_order_blocks] at hob
        split at hob
        · cases hob
        · rename_i evs hscan
          intro i h1 h2
          exact (scan_ok_iff.mp ⟨evs, hscan⟩) i (mem_range'_iff.mpr ⟨h1, by omega⟩)
    · intro hall
      have hscanall : ∀ i ∈ List.range' (candles.length - cfg.lookback)
          (candles.length - 3 - (candles.length - cfg.lookback)),
          (candles.getD i default).open_ ≠ 0 := by
        intro i hi
        obtain ⟨h1, h2⟩ := mem_range'_iff.mp hi
        exact hall i h1 (by omega)
      obtain ⟨evs, hscan⟩ := scan_ok_iff.mpr hscanall
      refine ⟨detect_equal_highs cfg candles (candles.length - cfg.lookback)
        ++ detect_equal_lows cfg candles (candles.length - cfg.lookback)
        ++ detect_fvg candles (candles.length - cfg.lookback)
        ++ evs.mergeSort (fun a b => decide (ob_sort_key b ≤ ob_sort_key a)), ?_⟩
      simp only [analyze]
      rw [if_neg h3]
      simp only [detect_order_blocks]
      rw [hscan]

/-- Inverting membership in the equal-highs detector: the generating pair
`(i, j)` with its guards. -/
theorem mem_equal_highs_elim {cfg : AnalyzerCfg} {cs : List Candle} {st : ℕ} {s : Signal}
    (h : s ∈ detect_equal_highs cfg cs st) :
    ∃ i j, st ≤ i ∧ i + 2 ≤ j ∧ j < cs.length ∧
      |round6 (cs.getD i default).high - round6 (cs.getD j default).high|
        ≤ cfg.equal_tolerance ∧
      highBreached cfg cs st i j (round6 (cs.getD i default).high)
        (round6 (cs.getD j default).high) = false ∧
      s = Signal.liquidityPool Side.buy (round6 (cs.getD i default).high)
        [(cs.getD i default).time, (cs.getD j default).time] := by
  simp only [detect_equal_highs, List.mem_flatMap, List.mem_filterMap] at h
  obtain ⟨i, hi, j, hj, hs⟩ := h
  rw [mem_range'_iff] at hi hj
  split at hs
  · rename_i htol
    split at hs
    · cases hs
    · rename_i hbr
      rw [Option.some.injEq] at hs
      rw [Bool.not_eq_true] at hbr
      exact ⟨i, j, hi.1, hj.1, by omega, htol, hbr, hs.symm⟩
  · cases hs

/-- Inverting membership in the equal-lows detector. -/
theorem mem_equal_lows_elim {cfg : AnalyzerCfg} {cs : List Candle} {st : ℕ} {s : Signal}
    (h : s ∈ detect_equal_lows cfg cs st) :
    ∃ i j, st ≤ i ∧ i + 2 ≤ j ∧ j < cs.length ∧
      |round6 (cs.getD i default).low - round6 (cs.getD j default).low|
        ≤ cfg.equal_tolerance ∧
      lowBreached cfg cs st i j (round6 (cs.getD i default).low)
        (round6 (cs.getD j default).low) = false ∧
      s = Signal.liquidityPool Side.sell (round6 (cs.getD i default).low)
        [(cs.getD i default).time, (cs.getD j default).time] := by
  simp only [detect_equal_lows, List.mem_flatMap, List.mem_filterMap] at h
  obtain ⟨i, hi, j, hj, hs⟩ := h
  rw [mem_range'_iff] at hi hj
  split at hs
  · rename_i htol
    split at hs
    · cases hs
    · rename_i hbr
      rw [Option.some.injEq] at hs
      rw [Bool.not_eq_true] at hbr
      exact ⟨i, j, hi.1, hj.1, by omega, htol, hbr, hs.symm⟩
  · cases hs

/-- A false high-breach test bounds every high on `[st, j)` except index
`i`. -/
theorem highBreached_false_elim {cfg : AnalyzerCfg} {cs : List Candle} {st i j : ℕ}
    {pi pj : ℚ} (h : highBreached cfg cs st i j pi pj = false) :
    ∀ k, st ≤ k → k < j → k ≠ i →
      (cs.getD k default).high ≤ max pi pj + cfg.equal_tolerance := by
  intro k h1 h2 h3
  rw [highBreached, Bool.or_eq_false_iff] at h
  obtain ⟨ha, hb⟩ := h
  rw [List.any_eq_false] at ha hb
  rcases Nat.lt_or_ge k i with hk | hk
  · have hx := hb k (mem_range'_iff.mpr ⟨h1, by omega⟩)
    simp only [decide_eq_true_eq] at hx
    exact not_lt.mp hx
  · have hik : i + 1 ≤ k := by omega
    have hx := ha k (mem_range'_iff.mpr ⟨hik, by omega⟩)
    simp only [decide_eq_true_eq] at hx
    exact not_lt.mp hx

/-- A false low-breach test bounds every low on `[st, j)` except index
`i`. -/
theorem lowBreached_false_elim {cfg : AnalyzerCfg} {cs : List Candle} {st i j : ℕ}
    {pi pj : ℚ} (h : lowBreached cfg cs st i j pi pj = false) :
    ∀ k, st ≤ k → k < j → k ≠ i →
      min pi pj - cfg.equal_tolerance ≤ (cs.getD k default).low := by
  intro k h1 h2 h3
  rw [lowBreached, Bool.or_eq_false_iff] at h
  obtain ⟨ha, hb⟩ := h
  rw [List.any_eq_false] at ha hb
  rcases Nat.lt_or_ge k i with hk | hk
  · have hx := hb k (mem_range'_iff.mpr ⟨h1, by omega⟩)
    simp only [decide_eq_true_eq] at hx
    exact not_lt.mp hx
  · have hik : i + 1 ≤ k := by omega
    have hx := ha k (mem_range'_iff.mpr ⟨hik, by omega⟩)
    simp only [decide_eq_true_eq] at hx
    exact not_lt.mp hx

/-- C4 (amended): every liquidity pool `analyze` emits comes from a pair
`(i, j)` with `j ≥ i + 2` inside the scanned window whose 6-decimal-rounded
levels are within tolerance of each other, and no candle strictly between
`start` and `j` (excluding `i`) has a high above the rounded pair maximum
plus tolerance (buy side), respectively a low below the rounded pair minimum
minus tolerance (sell side). -/
theorem liquidity_pool_pair_invariant (cfg : AnalyzerCfg) (candles : List Candle)
    (out : List Signal) (side : Side) (price : ℚ) (ts : List Time)
    (h : analyze cfg candles = Except.ok out)
    (hmem : Signal.liquidityPool side price ts ∈ out) :
    ∃ i j, candles.length - cfg.lookback ≤ i ∧ i + 2 ≤ j ∧ j < candles.length ∧
      ts = [(candles.getD i default).time, (candles.getD j default).time] ∧
      (side = Side.buy →
        price = round6 (candles.getD i default).high ∧
        |round6 (candles.getD i default).high - round6 (candles.getD j default).high|
          ≤ cfg.equal_tolerance ∧
        ∀ k, candles.length - cfg.lookback < k → k < j → k ≠ i →
          (candles.getD k default).high ≤
            max (round6 (candles.getD i default).high)
              (round6 (candles.getD j default).high) + cfg.equal_tolerance) ∧
      (side = Side.sell →
        price = round6 (candles.getD i default).low ∧
        |round6 (candles.getD i default).low - round6 (candles.getD j default).low|
          ≤ cfg.equal_tolerance ∧
        ∀ k, candles.length - cfg.lookback < k → k < j → k ≠ i →
          min (round6 (candles.getD i default).low)
            (round6 (candles.getD j default).low) - cfg.equal_tolerance
            ≤ (candles.getD k default).low) := by
  by_cases h3 : candles.length < 3
  · simp only [analyze] at h
    rw [if_pos h3] at h
    cases h
    simp at hmem
  · obtain ⟨evs, hscan, rfl⟩ := analyze_ok_elim h h3
    rcases List.mem_append.mp hmem with hmem' | hob
    · rcases List.mem_append.mp hmem' with hmem'' | hfvg
      · rcases List.mem_append.mp hmem'' with heh | hel
        · obtain ⟨i, j, h1, h2, h3', htol, hbr, hs⟩ := mem_equal_highs_elim heh
          cases hs
          refine ⟨i, j, h1, h2, h3', rfl, ?_, ?_⟩
          · intro _
            refine ⟨rfl, htol, ?_⟩
            intro k hk1 hk2 hk3
            exact highBreached_false_elim hbr k (by omega) hk2 hk3
          · intro hcon
            exact Side.noConfusion hcon
        · obtain ⟨i, j, h1, h2, h3', htol, hbr, hs⟩ := mem_equal_lows_elim hel
          cases hs
          refine ⟨i, j, h1, h2, h3', rfl, ?_, ?_⟩
          · intro hcon
            exact Side.noConfusion hcon
          · intro _
            refine ⟨rfl, htol, ?_⟩
            intro k hk1 hk2 hk3
            exact lowBreached_false_elim hbr k (by omega) hk2 hk3
      · obtain ⟨sd, gl, gh, t, hc⟩ := mem_fvg_shape hfvg
        cases hc
    · obtain ⟨sd, z, t, bs, v, hc⟩ := mem_scan_ob_shape hscan (List.mem_mergeSort.mp hob)
      cases hc

set_option maxHeartbeats 1000000 in
/-- C4 counterexample: with tolerance 0 the pair (0, 2) of
`pool_cex_candles` is emitted although its raw (unrounded) highs differ by
1e-7 > 0 — the detector compares prices rounded to 6 decimals, not the raw
levels the claim speaks of. -/
theorem liquidity_pool_raw_levels_cex :
    analyze ⟨100, 0⟩ pool_cex_candles
      = Except.ok [Signal.liquidityPool Side.buy 1 [⟨5, 0⟩, ⟨7, 0⟩]]
    ∧ ¬ ∃ i j, i + 2 ≤ j ∧ j < pool_cex_candles.length ∧
        ([⟨5, 0⟩, ⟨7, 0⟩] : List Time)
          = [(pool_cex_candles.getD i default).time,
             (pool_cex_candles.getD j default).time] ∧
        |(pool_cex_candles.getD i default).high - (pool_cex_candles.getD j default).high|
          ≤ (⟨100, 0⟩ : AnalyzerCfg).equal_tolerance := by
  constructor
  · have hfr : Int.fract ((10000001 : ℚ)/10) = 1/10 := by
      unfold Int.fract
      norm_num
    have r7 : round6 (10000001/10000000) = 1 := by
      norm_num [round6, roundHalfEven, hfr]
    norm_num [analyze, detect_equal_highs, detect_equal_lows, detect_fvg,
      detect_order_blocks, scan_order_blocks, ob_candidate, highBreached, lowBreached,
      in_silver_window, round6, roundHalfEven, volTruthy, min_body_size, min_volume,
      ob_sort_key, List.range', List.mergeSort, List.filterMap_cons, abs_of_nonneg,
      abs_of_nonpos, pool_cex_candles, hfr, r7]
  · rintro ⟨i, j, hij, hj, hts, htol⟩
    have hj' : j < 3 := by simpa [pool_cex_candles] using hj
    have hi0 : i = 0 := by omega
    have hj2 : j = 2 := by omega
    subst hi0
    subst hj2
    rw [show |(pool_cex_candles.getD 0 default).high - (pool_cex_candles.getD 2 default).high|
        = 1/10000000 by norm_num [pool_cex_candles]] at htol
    norm_num [AnalyzerCfg.equal_tolerance] at htol

set_option maxHeartbeats 1000000 in
/-- C4 witness: the rounded-level invariant at the emitted pair (0, 2) of
`pool_cex_candles`. -/
theorem liquidity_pool_pair_invariant_witness :
    ∃ i j, pool_cex_candles.length - (⟨100, 0⟩ : AnalyzerCfg).lookback ≤ i ∧
      i + 2 ≤ j ∧ j < pool_cex_candles.length ∧
      ([⟨5, 0⟩, ⟨7, 0⟩] : List Time)
        = [(pool_cex_candles.getD i default).time, (pool_cex_candles.getD j default).time] ∧
      (Side.buy = Side.buy →
        (1 : ℚ) = round6 (pool_cex_candles.getD i default).high ∧
        |round6 (pool_cex_candles.getD i default).high
            - round6 (pool_cex_candles.getD j default).high|
          ≤ (⟨100, 0⟩ : AnalyzerCfg).equal_tolerance ∧
        ∀ k, pool_cex_candles.length - (⟨100, 0⟩ : AnalyzerCfg).lookback < k → k < j → k ≠ i →
          (pool_cex_candles.getD k default).high ≤
            max (round6 (pool_cex_candles.getD i default).high)
              (round6 (pool_cex_candles.getD j default).high)
              + (⟨100, 0⟩ : AnalyzerCfg).equal_tolerance) ∧
      (Side.buy = Side.sell →
        (1 : ℚ) = round6 (pool_cex_candles.getD i default).low ∧
        |round6 (pool_cex_candles.getD i default).low
            - round6 (pool_cex_candles.getD j default).low|
          ≤ (⟨100, 0⟩ : AnalyzerCfg).equal_tolerance ∧
        ∀ k, pool_cex_candles.length - (⟨100, 0⟩ : AnalyzerCfg).lookback < k → k < j → k ≠ i →
          min (round6 (pool_cex_candles.getD i default).low)
            (round6 (pool_cex_candles.getD j default).low)
            - (⟨100, 0⟩ : AnalyzerCfg).equal_tolerance
            ≤ (pool_cex_candles.getD k default).low) :=
  liquidity_pool_pair_invariant ⟨100, 0⟩ pool_cex_candles
    [Signal.liquidityPool Side.buy 1 [⟨5, 0⟩, ⟨7, 0⟩]] Side.buy 1 [⟨5, 0⟩, ⟨7, 0⟩]
    (by
      have hfr : Int.fract ((10000001 : ℚ)/10) = 1/10 := by
        unfold Int.fract
        norm_num
      have r7 : round6 (10000001/10000000) = 1 := by
        norm_num [round6, roundHalfEven, hfr]
      norm_num [analyze, detect_equal_highs, detect_equal_lows, detect_fvg,
        detect_order_blocks, scan_order_blocks, ob_candidate, highBreached, lowBreached,
        in_silver_window, round6, roundHalfEven, volTruthy, min_body_size, min_volume,
        ob_sort_key, List.range', List.mergeSort, List.filterMap_cons, abs_of_nonneg,
        abs_of_nonpos, pool_cex_candles, hfr, r7])
    (by simp)

/-- C8 (amended): in a five-candle sequence whose first and last highs are
100 and 100.0005, whose three intervening highs do not exceed 100.0015, and
in which every other pair `(i, j)` with `j ≥ i + 2` has 6-decimal-rounded
highs more than the tolerance 1e-3 apart, `analyze` emits exactly one
buy-side liquidity pool: price 100, at the times of the first and last
bar. -/
theorem equal_highs_scenario_unique_pool
    (c0 c1 c2 c3 c4 : Candle) (out : List Signal)
    (h0 : c0.high = 100) (h4 : c4.high = 200001/2000)
    (hb1 : c1.high ≤ 200003/2000) (hb2 : c2.high ≤ 200003/2000)
    (hb3 : c3.high ≤ 200003/2000)
    (hp02 : ¬ |(100 : ℚ) - round6 c2.high| ≤ 1/1000)
    (hp03 : ¬ |(100 : ℚ) - round6 c3.high| ≤ 1/1000)
    (hp13 : ¬ |round6 c1.high - round6 c3.high| ≤ 1/1000)
    (hp14 : ¬ |round6 c1.high - (200001/2000 : ℚ)| ≤ 1/1000)
    (hp24 : ¬ |round6 c2.high - (200001/2000 : ℚ)| ≤ 1/1000)
    (h : analyze {} [c0, c1, c2, c3, c4] = Except.ok out) :
    out.filter is_buy_lp = [Signal.liquidityPool Side.buy 100 [c0.time, c4.time]] := by
  have h3 : ¬ ([c0, c1, c2, c3, c4].length < 3) := by simp
  obtain ⟨evs, hscan, rfl⟩ := analyze_ok_elim h h3
  have hel : (detect_equal_lows {} [c0, c1, c2, c3, c4]
      ([c0, c1, c2, c3, c4].length - ({} : AnalyzerCfg).lookback)).filter is_buy_lp = [] :=
    List.filter_eq_nil_iff.mpr fun s hs => by
      obtain ⟨p, ts, rfl⟩ := mem_equal_lows_shape hs
      simp [is_buy_lp]
  have hfv : (detect_fvg [c0, c1, c2, c3, c4]
      ([c0, c1, c2, c3, c4].length - ({} : AnalyzerCfg).lookback)).filter is_buy_lp = [] :=
    List.filter_eq_nil_iff.mpr fun s hs => by
      obtain ⟨sd, gl, gh, t, rfl⟩ := mem_fvg_shape hs
      simp [is_buy_lp]
  have hob : ((evs.mergeSort fun a b => decide (ob_sort_key b ≤ ob_sort_key a)).filter
      is_buy_lp) = [] :=
    List.filter_eq_nil_iff.mpr fun s hs => by
      obtain ⟨sd, z, t, bs, v, rfl⟩ := mem_scan_ob_shape hscan (List.mem_mergeSort.mp hs)
      simp [is_buy_lp]
  have heh : (detect_equal_highs {} [c0, c1, c2, c3, c4]
      ([c0, c1, c2, c3, c4].length - ({} : AnalyzerCfg).lookback)).filter is_buy_lp
      = detect_equal_highs {} [c0, c1, c2, c3, c4]
        ([c0, c1, c2, c3, c4].length - ({} : AnalyzerCfg).lookback) :=
    List.filter_eq_self.mpr fun s hs => by
      obtain ⟨p, ts, rfl⟩ := mem_equal_highs_shape hs
      simp [is_buy_lp]
  rw [List.filter_append, List.filter_append, List.filter_append, hel, hfv, hob, heh]
  simp only [List.append_nil]
  have r100 : round6 (100 : ℚ) = 100 := by norm_num [round6, roundHalfEven]
  have r5 : round6 (200001/2000 : ℚ) = 200001/2000 := by norm_num [round6, roundHalfEven]
  have hmax : (100 : ℚ) ⊔ (200001/2000) = 200001/2000 := sup_eq_right.mpr (by norm_num)
  have hmax' : max (100 : ℚ) (200001/2000) = 200001/2000 := hmax
  have hb1x : ¬ ((200003/2000 : ℚ) < c1.high) := not_lt.mpr hb1
  have hb2x : ¬ ((200003/2000 : ℚ) < c2.high) := not_lt.mpr hb2
  have hb3x : ¬ ((200003/2000 : ℚ) < c3.high) := not_lt.mpr hb3
  norm_num [detect_equal_highs, highBreached, List.range', List.filterMap_cons,
    h0, h4, r100, r5, hmax, hmax', hb1x, hb2x, hb3x, hp02, hp03, hp13, hp14, hp24,
    abs_of_nonneg]

set_option maxHeartbeats 1600000 in
/-- C8 counterexample: a sequence satisfying the claim's hypotheses
(endpoint highs 100 and 100.0005, three intervening bars with highs at most
100.0015, tolerance 1e-3) on which `analyze` emits six buy-side liquidity
pools, not exactly one: every intervening bar's high also equals 100, so
the pairs (0,2), (0,3), (0,4), (1,3), (1,4), (2,4) all qualify. -/
theorem equal_highs_scenario_multiple_pools :
    (scenario_cex_candles.getD 0 default).high = 100 ∧
    (scenario_cex_candles.getD 4 default).high = 200001/2000 ∧
    ((scenario_cex_candles.getD 1 default).high ≤ 200003/2000 ∧
     (scenario_cex_candles.getD 2 default).high ≤ 200003/2000 ∧
     (scenario_cex_candles.getD 3 default).high ≤ 200003/2000) ∧
    (analyze {} scenario_cex_candles).map (fun out => (out.filter is_buy_lp).length)
      = Except.ok 6 := by
  refine ⟨by norm_num [scenario_cex_candles], by norm_num [scenario_cex_candles],
    ⟨by norm_num [scenario_cex_candles], by norm_num [scenario_cex_candles],
     by norm_num [scenario_cex_candles]⟩, ?_⟩
  norm_num [analyze, detect_equal_highs, detect_equal_lows, detect_fvg,
    detect_order_blocks, scan_order_blocks, ob_candidate, highBreached, lowBreached,
    in_silver_window, round6, roundHalfEven, volTruthy, min_body_size, min_volume,
    ob_sort_key, List.range', List.mergeSort, List.filterMap_cons, abs_of_nonneg,
    abs_of_nonpos, scenario_cex_candles, is_buy_lp, Except.map]

set_option maxHeartbeats 1600000 in
/-- C8 witness: intervening highs 50, 60, 70 keep every other pair more
than the tolerance apart, and exactly the endpoint pool is emitted. -/
theorem equal_highs_scenario_unique_pool_witness :
    ([Signal.liquidityPool Side.buy 100 [⟨5, ⟨0, by norm_num⟩⟩, ⟨5, ⟨4, by norm_num⟩⟩]]
        : List Signal).filter is_buy_lp
      = [Signal.liquidityPool Side.buy 100 [⟨5, ⟨0, by norm_num⟩⟩, ⟨5, ⟨4, by norm_num⟩⟩]] :=
  equal_highs_scenario_unique_pool
    ⟨⟨5, ⟨0, by norm_num⟩⟩, 90, 100, 89, 91, none⟩
    ⟨⟨5, ⟨1, by norm_num⟩⟩, 40, 50, 39, 41, none⟩
    ⟨⟨5, ⟨2, by norm_num⟩⟩, 45, 60, 44, 46, none⟩
    ⟨⟨5, ⟨3, by norm_num⟩⟩, 55, 70, 54, 56, none⟩
    ⟨⟨5, ⟨4, by norm_num⟩⟩, 93, 200001/2000, 92, 94, none⟩
    [Signal.liquidityPool Side.buy 100 [⟨5, ⟨0, by norm_num⟩⟩, ⟨5, ⟨4, by norm_num⟩⟩]]
    (by norm_num) (by norm_num) (by norm_num) (by norm_num) (by norm_num)
    (by norm_num [round6, roundHalfEven, abs_of_nonneg])
    (by norm_num [round6, roundHalfEven, abs_of_nonneg])
    (by norm_num [round6, roundHalfEven, abs_of_nonneg])
    (by norm_num [round6, roundHalfEven, abs_of_nonneg])
    (by norm_num [round6, roundHalfEven, abs_of_nonneg])
    (by norm_num [analyze, detect_equal_highs, detect_equal_lows, detect_fvg,
      detect_order_blocks, scan_order_blocks, ob_candidate, highBreached, lowBreached,
      in_silver_window, round6, roundHalfEven, volTruthy, min_body_size, min_volume,
      ob_sort_key, List.range', List.mergeSort, List.filterMap_cons, abs_of_nonneg,
      abs_of_nonpos])
